import Mathlib

/-!
Verification development for the SimpleXray traffic-shaping core
(`pepper-shaper` pacing engine and ring buffer, `quiche-client` TUN
forwarder).  The C++ sources are shallowly embedded: unsigned 64-bit
machine arithmetic is modelled as `Nat` with an explicit reduction
modulo `2 ^ 64` wherever the C code can overflow or underflow, 32-bit
`float` quantities (the pacing loss-rate path) are idealised as exact
rationals, and every stateful C function becomes a pure function from
the old state to the new state (together with its return value).
-/

/-- Unsigned 64-bit wrap-around, as performed by C `uint64_t` / 64-bit
`size_t` addition and multiplication. -/
def u64 (n : Nat) : Nat := n % 18446744073709551616

/-- Unsigned 64-bit subtraction `a - b`, wrapping modulo `2 ^ 64` as in C. -/
def u64sub (a b : Nat) : Nat := (a + 18446744073709551616 - b % 18446744073709551616) % 18446744073709551616

/-! ## Pacing engine (`pepper_pacing.cpp`) -/

/-- `PepperPacingParams` from `pepper_pacing.h`. -/
structure PepperPacingParams where
  target_rate_bps : Nat
  max_burst_bytes : Nat
  loss_aware_backoff : Bool
  enable_pacing : Bool
  min_pacing_interval_ns : Nat
  deriving Repr, DecidableEq

/-- `PepperPacingState` from `pepper_pacing.h`.  The C `float loss_rate`
is idealised as an exact rational. -/
structure PepperPacingState where
  next_send_time_ns : Nat
  tokens : Nat
  last_update_ns : Nat
  loss_rate : ℚ
  rtt_ns : Nat
  in_backoff : Bool
  backoff_until_ns : Nat
  deriving Repr, DecidableEq

/-- `pepper_pacing_init`.  The C function reads the monotonic clock; the
model receives the clock value `now_ns` as an argument. -/
def pepper_pacing_init (params : PepperPacingParams) (now_ns : Nat) : PepperPacingState :=
  { next_send_time_ns := now_ns
    tokens := params.max_burst_bytes
    last_update_ns := now_ns
    loss_rate := 0
    rtt_ns := 0
    in_backoff := false
    backoff_until_ns := 0 }

/-- `pepper_pacing_can_send` on a non-null state and params (the null
cases are the wrapper `pepper_pacing_can_send_checked` below).  Returns
the C return value together with the state left behind by the call. -/
def pepper_pacing_can_send (state : PepperPacingState) (params : PepperPacingParams)
    (packet_size current_time_ns : Nat) : Bool × PepperPacingState :=
  if params.enable_pacing = false then
    (true, state)
  else if state.in_backoff ∧ current_time_ns < state.backoff_until_ns then
    (false, state)
  else
    let state1 := { state with in_backoff := false }
    if current_time_ns < state1.next_send_time_ns then
      (false, state1)
    else if params.target_rate_bps > 0 then
      let elapsed_ns := u64sub current_time_ns state1.last_update_ns
      let tokens_to_add := u64 (elapsed_ns * params.target_rate_bps) / 8000000000
      let state2 := { state1 with
        tokens := min (u64 (state1.tokens + tokens_to_add)) params.max_burst_bytes
        last_update_ns := current_time_ns }
      if state2.tokens < packet_size then (false, state2) else (true, state2)
    else
      (true, state1)

/-- `pepper_pacing_can_send` including the C null-pointer guard
`if (!state || !params || !params->enable_pacing) return true;`:
a null `state` or null `params` behaves exactly like disabled pacing. -/
def pepper_pacing_can_send_checked (state : Option PepperPacingState)
    (params : Option PepperPacingParams) (packet_size current_time_ns : Nat) :
    Bool × Option PepperPacingState :=
  match state, params with
  | some st, some p =>
      let r := pepper_pacing_can_send st p packet_size current_time_ns
      (r.1, some r.2)
  | st, _ => (true, st)

/-- `pepper_pacing_update_after_send`.  The C `float` backoff computation
`(rtt or 100ms) * (1.0f + loss_rate * 10.0f)`, truncated by the
`static_cast<uint64_t>`, is idealised as an exact rational product
followed by `floor`. -/
def pepper_pacing_update_after_send (state : PepperPacingState) (params : PepperPacingParams)
    (packet_size current_time_ns : Nat) : PepperPacingState :=
  let state1 : PepperPacingState :=
    if params.target_rate_bps > 0 then
      { state with tokens := if packet_size ≤ state.tokens then state.tokens - packet_size else 0 }
    else state
  let state2 : PepperPacingState :=
    if params.target_rate_bps > 0 then
      let interval_ns := u64 (packet_size * 8 * 1000000000) / params.target_rate_bps
      let interval_ns := max interval_ns params.min_pacing_interval_ns
      { state1 with next_send_time_ns := u64 (current_time_ns + interval_ns) }
    else
      { state1 with next_send_time_ns := u64 (current_time_ns + params.min_pacing_interval_ns) }
  if params.loss_aware_backoff = true ∧ (1/10 : ℚ) < state2.loss_rate then
    let backoff_factor : ℚ := 1 + state2.loss_rate * 10
    let base_ns : Nat := if state2.rtt_ns > 0 then state2.rtt_ns else 100000000
    let backoff_duration_ns : Nat := (Rat.floor ((base_ns : ℚ) * backoff_factor)).toNat
    { state2 with
      backoff_until_ns := u64 (current_time_ns + backoff_duration_ns)
      in_backoff := true }
  else state2

/-- The pacing interval that `pepper_pacing_update_after_send` adds to
`current_time_ns` (before 64-bit wrap): `max(packet_size*8e9/rate, min_interval)`
when a target rate is set, `min_interval` otherwise. -/
def pacingInterval (params : PepperPacingParams) (packet_size : Nat) : Nat :=
  if params.target_rate_bps > 0 then
    max (u64 (packet_size * 8 * 1000000000) / params.target_rate_bps) params.min_pacing_interval_ns
  else params.min_pacing_interval_ns

/-- Number of packets of size `packet_size` admitted at the fixed
timestamp `now_ns` before `pepper_pacing_can_send` first returns false:
each admitted packet is immediately followed by
`pepper_pacing_update_after_send`, as in the driver loop. -/
def pacingAdmitted (params : PepperPacingParams) (packet_size now_ns : Nat) :
    Nat → PepperPacingState → Nat
  | 0, _ => 0
  | fuel + 1, st =>
      let r := pepper_pacing_can_send st params packet_size now_ns
      if r.1 then
        1 + pacingAdmitted params packet_size now_ns fuel
          (pepper_pacing_update_after_send r.2 params packet_size now_ns)
      else 0

/-! ## Ring buffer (`pepper_queue.cpp`) -/

/-- `PepperRingBuffer` from `pepper_queue.h`: the byte region `data`
(length `capacity`) together with the four counters.  Positions are
`uint64_t` and sequence counters `uint32_t` in C; they are modelled as
`Nat`, with the wrap-arounds the C code performs written explicitly. -/
structure PepperRingBuffer where
  capacity : Nat
  data : List Nat
  write_pos : Nat
  write_seq : Nat
  read_pos : Nat
  read_seq : Nat
  deriving Repr, DecidableEq

/-- `memcpy(dst + off, src, src.length)` on a byte region represented as
a list: overwrites `dst[off .. off + src.length)`. -/
def memWrite (dst : List Nat) (off : Nat) (src : List Nat) : List Nat :=
  dst.take off ++ src.take (dst.length - off) ++ dst.drop (off + src.length)

/-- `pepper_queue_create`: capacity must be in `[1, 64 MiB]`.  The C
buffer starts uninitialised; the model starts it zero-filled (no claim
reads a byte that was not first written). -/
def pepper_queue_create (capacity : Nat) : Option PepperRingBuffer :=
  if capacity = 0 ∨ 64 * 1024 * 1024 < capacity then none
  else some
    { capacity := capacity
      data := List.replicate capacity 0
      write_pos := 0
      write_seq := 0
      read_pos := 0
      read_seq := 0 }

/-- `pepper_queue_enqueue` (with non-null `rb`/`data`): returns the number
of bytes written and the updated buffer.  All `uint64_t` subtractions and
additions wrap modulo `2 ^ 64` exactly as in C. -/
def pepper_queue_enqueue (rb : PepperRingBuffer) (input : List Nat) :
    Nat × PepperRingBuffer :=
  if input.length = 0 then (0, rb)
  else
    let write_pos := rb.write_pos
    let write_seq := rb.write_seq
    let read_pos := rb.read_pos
    let read_seq := rb.read_seq
    let available :=
      if write_seq = read_seq then
        if read_pos ≤ write_pos then
          u64sub rb.capacity (u64sub write_pos read_pos)
        else
          u64sub read_pos write_pos
      else
        u64sub rb.capacity (u64sub read_pos write_pos)
    if available ≤ 1 then (0, rb)
    else
      let to_write := if input.length < available - 1 then input.length else available - 1
      let first_part := if u64 (write_pos + to_write) ≤ rb.capacity then to_write
                        else u64sub rb.capacity write_pos
      let data1 := memWrite rb.data write_pos (input.take first_part)
      let data2 := if first_part < to_write then
                     memWrite data1 0 ((input.take to_write).drop first_part)
                   else data1
      let new_pos := u64 (write_pos + to_write) % rb.capacity
      let new_seq := if rb.capacity ≤ u64 (write_pos + to_write) then (write_seq + 1) % 4294967295
                     else write_seq
      (to_write, { rb with data := data2, write_pos := new_pos, write_seq := new_seq })

/-- `pepper_queue_dequeue` (with non-null `rb`/`data`): returns the bytes
read and the updated buffer. -/
def pepper_queue_dequeue (rb : PepperRingBuffer) (max_length : Nat) :
    List Nat × PepperRingBuffer :=
  if max_length = 0 then ([], rb)
  else
    let read_pos := rb.read_pos
    let read_seq := rb.read_seq
    let write_pos := rb.write_pos
    let write_seq := rb.write_seq
    if read_seq = write_seq ∧ read_pos = write_pos then ([], rb)
    else
      let available :=
        if read_seq = write_seq then
          if read_pos < write_pos then u64sub write_pos read_pos
          else 0
        else
          u64sub rb.capacity (u64sub read_pos write_pos)
      let to_read := if max_length < available then max_length else available
      let first_part := if u64 (read_pos + to_read) ≤ rb.capacity then to_read
                        else u64sub rb.capacity read_pos
      let out := (rb.data.drop read_pos).take first_part ++
                 (if first_part < to_read then rb.data.take (to_read - first_part) else [])
      let new_pos := u64 (read_pos + to_read) % rb.capacity
      let new_seq := if rb.capacity ≤ u64 (read_pos + to_read) then (read_seq + 1) % 4294967295
                     else read_seq
      (out, { rb with read_pos := new_pos, read_seq := new_seq })

/-- `pepper_queue_available` (free space the caller may enqueue). -/
def pepper_queue_available (rb : PepperRingBuffer) : Nat :=
  if rb.write_seq = rb.read_seq then
    if rb.read_pos ≤ rb.write_pos then
      u64sub (u64sub rb.capacity (u64sub rb.write_pos rb.read_pos)) 1
    else
      u64sub (u64sub rb.read_pos rb.write_pos) 1
  else
    u64sub (u64sub rb.capacity (u64sub rb.read_pos rb.write_pos)) 1

/-- `pepper_queue_used` (bytes currently held). -/
def pepper_queue_used (rb : PepperRingBuffer) : Nat :=
  if rb.read_seq = rb.write_seq ∧ rb.read_pos = rb.write_pos then 0
  else if rb.read_seq = rb.write_seq then
    if rb.read_pos < rb.write_pos then u64sub rb.write_pos rb.read_pos
    else 0
  else
    u64sub rb.capacity (u64sub rb.read_pos rb.write_pos)

/-- One client operation on a ring buffer. -/
inductive RbOp where
  | enq (xs : List Nat)
  | deq (k : Nat)
  deriving Repr, DecidableEq

/-- Run a sequence of operations, accumulating the stream of bytes
accepted by the enqueues and the stream of bytes returned by the
dequeues. -/
def pepper_queue_run (rb : PepperRingBuffer) (accepted dequeued : List Nat) :
    List RbOp → PepperRingBuffer × List Nat × List Nat
  | [] => (rb, accepted, dequeued)
  | RbOp.enq xs :: ops =>
      let r := pepper_queue_enqueue rb xs
      pepper_queue_run r.2 (accepted ++ xs.take r.1) dequeued ops
  | RbOp.deq k :: ops =>
      let r := pepper_queue_dequeue rb k
      pepper_queue_run r.2 accepted (dequeued ++ r.1) ops

/-- Total payload offered to the enqueues of an operation sequence. -/
def offeredBytes : List RbOp → List Nat
  | [] => []
  | RbOp.enq xs :: ops => xs ++ offeredBytes ops
  | RbOp.deq _ :: ops => offeredBytes ops

/-! ## TUN forwarder (`quiche_tun_forwarder.cpp`) -/

/-- The forwarder's packet pool: the `in_use` flag of each
`PacketBuffer` slot, plus the rotating `pool_index_` counter (a
`std::atomic<size_t>`, modelled with its 64-bit wrap). -/
structure PacketPool where
  slots : List Bool
  pool_index : Nat
  deriving Repr, DecidableEq

/-- The scan loop of `QuicheTunForwarder::AllocatePacket`: iteration `i`
computes `idx = (pool_index_.fetch_add(1) + i) % size` — the
`fetch_add` happens on every iteration — and claims the slot when its
`in_use` flag is clear.  Returns the allocated slot index (if any)
together with the updated flags and counter.  `fuel` counts the
remaining iterations, starting at `size`. -/
def allocateScan (size : Nat) : Nat → Nat → List Bool → Nat → Option Nat × List Bool × Nat
  | 0, _, slots, pool_index => (none, slots, pool_index)
  | fuel + 1, i, slots, pool_index =>
      let idx := (pool_index + i) % size
      let pool_index1 := u64 (pool_index + 1)
      if slots.getD idx true = false then
        (some idx, slots.set idx true, pool_index1)
      else
        allocateScan size fuel (i + 1) slots pool_index1

/-- `QuicheTunForwarder::AllocatePacket`: returns the index of the
allocated pool slot, or `none` when the scan finds no free slot.
(The C code also resets the slot's `len`; packet contents are not
relevant to the pool claims.) -/
def AllocatePacket (p : PacketPool) : Option Nat × PacketPool :=
  let r := allocateScan p.slots.length p.slots.length 0 p.slots p.pool_index
  (r.1, { slots := r.2.1, pool_index := r.2.2 })

/-- `QuicheTunForwarder::FreePacket` on the slot `idx`: clears `in_use`. -/
def FreePacket (p : PacketPool) (idx : Nat) : PacketPool :=
  { p with slots := p.slots.set idx false }

/-- `ForwarderStats` from `quiche_tun_forwarder.h`; the `double` rates
are idealised as exact rationals. -/
structure ForwarderStats where
  packets_received : Nat
  packets_sent : Nat
  packets_dropped : Nat
  bytes_received : Nat
  bytes_sent : Nat
  rx_rate_mbps : ℚ
  tx_rate_mbps : ℚ
  avg_latency_us : Nat
  deriving Repr, DecidableEq

/-- `QuicheTunForwarder::SendViaQuic`, with the QUIC client abstracted:
`connected` is `quic_client_->IsConnected()` and `sendRes` the `ssize_t`
returned by `quic_client_->Send`.  Returns `0` on success, `-1` on
failure. -/
def SendViaQuic (connected : Bool) (sendRes : Int) : Int :=
  if connected = false then -1
  else if 0 ≤ sendRes then 0 else -1

/-- `QuicheTunForwarder::ProcessPacketBatch`: walks the batch in receive
order; a failed submission increments `packets_dropped`, a successful
one increments `packets_sent` and `bytes_sent`.  `sendRes i` is the
result the QUIC client returns for the `i`-th `Send` call of this
batch.  Also returns the trace of packets handed to `SendViaQuic`, in
call order. -/
def ProcessPacketBatch (connected : Bool) (sendRes : Nat → Int) :
    Nat → List (List Nat) → ForwarderStats → ForwarderStats × List (List Nat)
  | _, [], stats => (stats, [])
  | i, pkt :: rest, stats =>
      let stats1 := if SendViaQuic connected (sendRes i) < 0 then
          { stats with packets_dropped := u64 (stats.packets_dropped + 1) }
        else
          { stats with
            packets_sent := u64 (stats.packets_sent + 1)
            bytes_sent := u64 (stats.bytes_sent + pkt.length) }
      let r := ProcessPacketBatch connected sendRes (i + 1) rest stats1
      (r.1, pkt :: r.2)

/-- `QuicheTunForwarder::UpdateStats`: recomputes `rx_rate_mbps` /
`tx_rate_mbps` from the *cumulative* byte counters and the time elapsed
since `last_stats_update_us_`; returns the new stats and the new
`last_stats_update_us_`. -/
def UpdateStats (now_us : Nat) (stats : ForwarderStats) (last_stats_update_us : Nat) :
    ForwarderStats × Nat :=
  let elapsed_us := u64sub now_us last_stats_update_us
  if elapsed_us = 0 then (stats, last_stats_update_us)
  else
    ({ stats with
        rx_rate_mbps := (stats.bytes_received * 8 : ℚ) / (elapsed_us : ℚ)
        tx_rate_mbps := (stats.bytes_sent * 8 : ℚ) / (elapsed_us : ℚ) },
     now_us)

/-- The rate the spec describes: bytes transferred since the previous
stats update (`delta`), times 8, divided by the elapsed microseconds.
Stated from the spec's words, for comparison with `UpdateStats`. -/
def specDeltaRateMbps (prevBytes currBytes elapsed_us : Nat) : ℚ :=
  ((currBytes - prevBytes : Nat) * 8 : ℚ) / (elapsed_us : ℚ)

/-- Number of failed `SendViaQuic` submissions a batch starting at call
index `i` incurs (property-side counting function). -/
def failCount (connected : Bool) (sendRes : Nat → Int) : Nat → List (List Nat) → Nat
  | _, [] => 0
  | i, _ :: rest =>
      (if SendViaQuic connected (sendRes i) < 0 then 1 else 0) +
        failCount connected sendRes (i + 1) rest

/-- Invariant tying a ring buffer reachable without position wrap to the
streams of bytes accepted so far (`acc`) and returned by dequeues so far
(`deq`): both sequence counters still 0, positions within capacity and
equal to the cumulative byte counts, and the accepted stream equal to
the dequeued stream followed by the bytes currently stored between
`read_pos` and `write_pos`. -/
structure QueueInv (rb : PepperRingBuffer) (acc deq : List Nat) : Prop where
  hdata : rb.data.length = rb.capacity
  hcap : 0 < rb.capacity
  hcap64 : rb.capacity < 18446744073709551616
  hws : rb.write_seq = 0
  hrs : rb.read_seq = 0
  hwp : rb.write_pos < rb.capacity
  hrw : rb.read_pos ≤ rb.write_pos
  hacc : acc.length = rb.write_pos
  hdeq : deq.length = rb.read_pos
  hwin : acc = deq ++ (rb.data.drop rb.read_pos).take (rb.write_pos - rb.read_pos)

/-! ## Claim theorems -/

theorem u64_eq_of_lt {n : Nat} (h : n < 18446744073709551616) : u64 n = n :=
  Nat.mod_eq_of_lt h

theorem u64sub_eq_of_le {a b : Nat} (hba : b ≤ a) (ha : a < 18446744073709551616) :
    u64sub a b = a - b := by
  unfold u64sub
  omega


/-- C10: `pepper_pacing_can_send` called with a null state pointer or a
null params pointer returns true for every packet size and timestamp,
exactly as when pacing is disabled, and modifies no state. -/
theorem can_send_null_admits (packet_size current_time_ns : Nat) :
    (∀ params : Option PepperPacingParams,
        pepper_pacing_can_send_checked none params packet_size current_time_ns =
          (true, none)) ∧
    (∀ st : PepperPacingState,
        pepper_pacing_can_send_checked (some st) none packet_size current_time_ns =
          (true, some st)) ∧
    (∀ (st : PepperPacingState) (p : PepperPacingParams), p.enable_pacing = false →
        pepper_pacing_can_send_checked (some st) (some p) packet_size current_time_ns =
          (true, some st)) := by
  refine ⟨fun params => ?_, fun st => rfl, fun st p hp => ?_⟩
  · cases params <;> rfl
  · simp [pepper_pacing_can_send_checked, pepper_pacing_can_send, hp]

/-- C10 witness: the null-params branch at a concrete disabled
configuration. -/
theorem can_send_null_admits_witness :
    pepper_pacing_can_send_checked
      (some { next_send_time_ns := 7, tokens := 3, last_update_ns := 2, loss_rate := 0,
              rtt_ns := 0, in_backoff := false, backoff_until_ns := 0 })
      (some { target_rate_bps := 5, max_burst_bytes := 3, loss_aware_backoff := false,
              enable_pacing := false, min_pacing_interval_ns := 9 }) 4 1 =
    (true, some { next_send_time_ns := 7, tokens := 3, last_update_ns := 2, loss_rate := 0,
                  rtt_ns := 0, in_backoff := false, backoff_until_ns := 0 }) :=
  (can_send_null_admits 4 1).2.2 _ _ rfl

/-- C9: `UpdateStats` computes the rates from the cumulative byte
counters, not from the bytes transferred since the previous update.
Failing input: `bytes_sent = 1000` all sent before the first update;
between the update at `t = 100000 µs` and the one at `t = 200000 µs`
no byte is sent, yet the second update reports a nonzero `tx_rate_mbps`
(the delta-based rate of that interval is 0). -/
theorem update_stats_uses_cumulative_bytes :
    (UpdateStats 200000
        (UpdateStats 100000
          { packets_received := 0, packets_sent := 1, packets_dropped := 0,
            bytes_received := 0, bytes_sent := 1000, rx_rate_mbps := 0,
            tx_rate_mbps := 0, avg_latency_us := 0 } 0).1
        100000).1.tx_rate_mbps = 2/25 ∧
    (UpdateStats 200000
        (UpdateStats 100000
          { packets_received := 0, packets_sent := 1, packets_dropped := 0,
            bytes_received := 0, bytes_sent := 1000, rx_rate_mbps := 0,
            tx_rate_mbps := 0, avg_latency_us := 0 } 0).1
        100000).1.bytes_sent = 1000 ∧
    specDeltaRateMbps 1000 1000 100000 = 0 ∧
    ((2 : ℚ)/25) ≠ 0 := by
  refine ⟨?_, rfl, ?_, by norm_num⟩
  · show ((1000 * 8 : ℚ) / ((u64sub 200000 100000 : Nat) : ℚ)) = 2/25
    norm_num [u64sub]
  · show (((1000 - 1000 : Nat) : ℚ) * 8 / ((100000 : Nat) : ℚ)) = 0
    norm_num

/-- C1: the ring buffer's space accounting breaks after a wrap of the
write position.  With capacity 8, after `enqueue` of 7 bytes, `dequeue`
of 7 and `enqueue` of 1 more byte (which wraps the write position),
`used()` is 1 but `available()` returns 0 instead of
`capacity - used - 1 = 6`; and after `enqueue 7, dequeue 2, enqueue 2,
enqueue 6` the wrapped-generation space formula lets the last enqueue
overwrite unread bytes, leaving `used() = 13` on a capacity-8 buffer
(the claimed invariant is `used ≤ capacity - 1 = 7`). -/
theorem ringbuffer_wrapped_accounting_violation :
    pepper_queue_create 8 = some
      { capacity := 8, data := List.replicate 8 0, write_pos := 0, write_seq := 0,
        read_pos := 0, read_seq := 0 } ∧
    pepper_queue_used
      (pepper_queue_run
        { capacity := 8, data := List.replicate 8 0, write_pos := 0, write_seq := 0,
          read_pos := 0, read_seq := 0 } [] []
        [RbOp.enq (List.replicate 7 1), RbOp.deq 7, RbOp.enq [42]]).1 = 1 ∧
    pepper_queue_available
      (pepper_queue_run
        { capacity := 8, data := List.replicate 8 0, write_pos := 0, write_seq := 0,
          read_pos := 0, read_seq := 0 } [] []
        [RbOp.enq (List.replicate 7 1), RbOp.deq 7, RbOp.enq [42]]).1 = 0 ∧
    (0 : Nat) ≠ 8 - 1 - 1 ∧
    pepper_queue_used
      (pepper_queue_run
        { capacity := 8, data := List.replicate 8 0, write_pos := 0, write_seq := 0,
          read_pos := 0, read_seq := 0 } [] []
        [RbOp.enq [1,2,3,4,5,6,7], RbOp.deq 2, RbOp.enq [8,9],
         RbOp.enq [10,11,12,13,14,15]]).1 = 13 ∧
    ¬ (13 : Nat) ≤ 8 - 1 := by decide

/-- C7: pool exhaustion is signalled by null and the first two
allocations of a size-2 pool are distinct, but recovery after a free
fails: the in-loop `fetch_add` makes the scan step two slots per
iteration, so after allocating both slots and freeing slot 1 the next
`AllocatePacket` only ever probes slot 0 and returns null although
slot 1 is free. -/
theorem packet_pool_recovery_failure :
    (AllocatePacket { slots := [false, false], pool_index := 0 }).1 = some 0 ∧
    (AllocatePacket (AllocatePacket { slots := [false, false], pool_index := 0 }).2).1 =
      some 1 ∧
    (AllocatePacket (AllocatePacket
        (AllocatePacket { slots := [false, false], pool_index := 0 }).2).2).1 = none ∧
    (FreePacket (AllocatePacket (AllocatePacket
        (AllocatePacket { slots := [false, false], pool_index := 0 }).2).2).2 1).slots =
      [true, false] ∧
    (AllocatePacket (FreePacket (AllocatePacket (AllocatePacket
        (AllocatePacket { slots := [false, false], pool_index := 0 }).2).2).2 1)).1 =
      none := by decide

/-- C3 counterexample: with pacing enabled, `target_rate_bps = 8`,
`max_burst_bytes = 2`, `packet_size = 1 ≤ 2` and
`min_pacing_interval_ns = 0`, back-to-back sends at `t = 0` admit only
1 packet, not `floor(B/s) = 2`: the first `update_after_send` moves
`next_send_time_ns` to `interval = 1*8*10^9/8 = 10^9 > 0`, so the time
gate rejects the second packet regardless of the remaining token. -/
theorem pacing_token_conservation_counterexample :
    pacingAdmitted
      { target_rate_bps := 8, max_burst_bytes := 2, loss_aware_backoff := false,
        enable_pacing := true, min_pacing_interval_ns := 0 } 1 0 5
      (pepper_pacing_init
        { target_rate_bps := 8, max_burst_bytes := 2, loss_aware_backoff := false,
          enable_pacing := true, min_pacing_interval_ns := 0 } 0) = 1 ∧
    (2 : Nat) / 1 = 2 ∧ (1 : Nat) ≠ 2 := by decide

/-- C6 counterexample: a `pepper_pacing_can_send` call rejected by the
time-pacing gate (`now = 50 < next_send_time_ns = 100`) returns false
without touching `tokens` or `last_update_ns`, although a refill at
`now` would have raised `tokens` from 5 to `max_burst_bytes = 10`
(rate 8·10⁹ bps = 1 byte/ns, 50 ns elapsed) and set
`last_update_ns = 50`; so not every call updates those fields. -/
theorem can_send_time_gate_skips_refill :
    (pepper_pacing_can_send
        { next_send_time_ns := 100, tokens := 5, last_update_ns := 0, loss_rate := 0,
          rtt_ns := 0, in_backoff := false, backoff_until_ns := 0 }
        { target_rate_bps := 8000000000, max_burst_bytes := 10, loss_aware_backoff := false,
          enable_pacing := true, min_pacing_interval_ns := 0 } 1 50).1 = false ∧
    (pepper_pacing_can_send
        { next_send_time_ns := 100, tokens := 5, last_update_ns := 0, loss_rate := 0,
          rtt_ns := 0, in_backoff := false, backoff_until_ns := 0 }
        { target_rate_bps := 8000000000, max_burst_bytes := 10, loss_aware_backoff := false,
          enable_pacing := true, min_pacing_interval_ns := 0 } 1 50).2.tokens = 5 ∧
    (pepper_pacing_can_send
        { next_send_time_ns := 100, tokens := 5, last_update_ns := 0, loss_rate := 0,
          rtt_ns := 0, in_backoff := false, backoff_until_ns := 0 }
        { target_rate_bps := 8000000000, max_burst_bytes := 10, loss_aware_backoff := false,
          enable_pacing := true, min_pacing_interval_ns := 0 } 1 50).2.last_update_ns = 0 ∧
    min (u64 (5 + u64 (u64sub 50 0 * 8000000000) / 8000000000)) 10 = 10 ∧
    (5 : Nat) ≠ 10 ∧ (0 : Nat) ≠ 50 := by decide

theorem can_send_zero_time (p : PepperPacingParams) (s T : Nat)
    (hen : p.enable_pacing = true) (hR : 0 < p.target_rate_bps)
    (hTB : T ≤ p.max_burst_bytes) (hB64 : p.max_burst_bytes < 18446744073709551616) :
    pepper_pacing_can_send ⟨0, T, 0, 0, 0, false, 0⟩ p s 0 =
      (!decide (T < s), ⟨0, T, 0, 0, 0, false, 0⟩) := by
  have hT64 : T < 18446744073709551616 := lt_of_le_of_lt hTB hB64
  have hkey : min (u64 (T + u64 (u64sub 0 0 * p.target_rate_bps) / 8000000000))
      p.max_burst_bytes = T := by
    have h0 : u64sub 0 0 = 0 := rfl
    rw [h0, Nat.zero_mul]
    show min (u64 (T + u64 0 / 8000000000)) p.max_burst_bytes = T
    have h2 : u64 0 / 8000000000 = 0 := rfl
    rw [h2, Nat.add_zero, u64_eq_of_lt hT64]
    exact min_eq_left hTB
  simp only [pepper_pacing_can_send, hen, Bool.true_eq_false, Bool.false_eq_true,
    lt_self_iff_false, false_and, if_false, hR, if_true, hkey]
  by_cases hTs : T < s
  · simp [hTs]
  · simp [hTs]

theorem update_after_send_zero_time (p : PepperPacingParams) (s T : Nat)
    (hR : 0 < p.target_rate_bps) (hR64 : p.target_rate_bps < 18446744073709551616)
    (hst : s ≤ T) (hint : s * 8 * 1000000000 < p.target_rate_bps)
    (hmin : p.min_pacing_interval_ns = 0) :
    pepper_pacing_update_after_send ⟨0, T, 0, 0, 0, false, 0⟩ p s 0 =
      ⟨0, T - s, 0, 0, 0, false, 0⟩ := by
  have hi : u64 (s * 8 * 1000000000) / p.target_rate_bps = 0 := by
    rw [u64_eq_of_lt (lt_trans hint hR64)]
    exact Nat.div_eq_of_lt hint
  simp only [pepper_pacing_update_after_send, if_pos hR, hi, hmin, Nat.max_self,
    Nat.add_zero, if_pos hst]
  rw [if_neg]
  · rfl
  · simp

theorem pacingAdmitted_back_to_back (p : PepperPacingParams) (s : Nat)
    (hen : p.enable_pacing = true) (hR : 0 < p.target_rate_bps)
    (hR64 : p.target_rate_bps < 18446744073709551616)
    (hB64 : p.max_burst_bytes < 18446744073709551616)
    (hs : 0 < s) (hint : s * 8 * 1000000000 < p.target_rate_bps)
    (hmin : p.min_pacing_interval_ns = 0) :
    ∀ fuel T, T ≤ p.max_burst_bytes → T / s < fuel →
      pacingAdmitted p s 0 fuel ⟨0, T, 0, 0, 0, false, 0⟩ = T / s := by
  intro fuel
  induction fuel with
  | zero => intro T _ hf; exact absurd hf (Nat.not_lt_zero _)
  | succ f ih =>
      intro T hT hf
      show (let r := pepper_pacing_can_send ⟨0, T, 0, 0, 0, false, 0⟩ p s 0
            if r.1 then
              1 + pacingAdmitted p s 0 f
                (pepper_pacing_update_after_send r.2 p s 0) else 0) = T / s
      rw [can_send_zero_time p s T hen hR hT hB64]
      by_cases hTs : T < s
      · simp only [hTs]
        simp only [decide_True, Bool.not_true, Bool.false_eq_true, if_false]
        exact (Nat.div_eq_of_lt hTs).symm
      · have hst : s ≤ T := Nat.le_of_not_lt hTs
        have hdiv : T / s = (T - s) / s + 1 := Nat.div_eq_sub_div hs hst
        simp only [hTs]
        simp only [decide_False, Bool.not_false, if_true]
        rw [update_after_send_zero_time p s T hR hR64 hst hint hmin]
        rw [ih (T - s) (le_trans (Nat.sub_le T s) hT) (by omega)]
        omega

/-- C3 (amended): back-to-back sends at `t = 0` admit exactly
`floor(max_burst_bytes / packet_size)` packets before
`pepper_pacing_can_send` first returns false, provided the pacing
interval computed by `pepper_pacing_update_after_send` is zero, i.e.
`min_pacing_interval_ns = 0` and `packet_size * 8 * 10^9 <
target_rate_bps`; with a positive interval the time gate stops the
sequence after the first packet (see the counterexample). -/
theorem pacing_token_conservation_zero_interval
    (p : PepperPacingParams) (s fuel : Nat)
    (hen : p.enable_pacing = true) (hR : 0 < p.target_rate_bps)
    (hR64 : p.target_rate_bps < 18446744073709551616)
    (hB64 : p.max_burst_bytes < 18446744073709551616)
    (hs : 0 < s) (hsB : s ≤ p.max_burst_bytes)
    (hint : s * 8 * 1000000000 < p.target_rate_bps)
    (hmin : p.min_pacing_interval_ns = 0)
    (hfuel : p.max_burst_bytes / s < fuel) :
    pacingAdmitted p s 0 fuel (pepper_pacing_init p 0) =
      p.max_burst_bytes / s :=
  pacingAdmitted_back_to_back p s hen hR hR64 hB64 hs hint hmin fuel
    p.max_burst_bytes (le_refl _) hfuel

/-- C3 witness: rate `10^10` bps, burst 3 bytes, packet size 1,
interval 0 — exactly 3 packets admitted. -/
theorem pacing_token_conservation_zero_interval_witness :
    pacingAdmitted
      { target_rate_bps := 10000000000, max_burst_bytes := 3, loss_aware_backoff := false,
        enable_pacing := true, min_pacing_interval_ns := 0 } 1 0 4
      (pepper_pacing_init
        { target_rate_bps := 10000000000, max_burst_bytes := 3, loss_aware_backoff := false,
          enable_pacing := true, min_pacing_interval_ns := 0 } 0) = 3 :=
  pacing_token_conservation_zero_interval
    { target_rate_bps := 10000000000, max_burst_bytes := 3, loss_aware_backoff := false,
      enable_pacing := true, min_pacing_interval_ns := 0 } 1 4
    rfl (by decide) (by decide) (by decide) (by decide) (by decide) (by decide) rfl
    (by decide)

theorem update_after_send_eq (st : PepperPacingState) (p : PepperPacingParams)
    (s t : Nat) :
    pepper_pacing_update_after_send st p s t =
      (if p.loss_aware_backoff = true ∧ (1/10 : ℚ) < st.loss_rate then
        { st with
          tokens := if 0 < p.target_rate_bps then
              (if s ≤ st.tokens then st.tokens - s else 0) else st.tokens
          next_send_time_ns := u64 (t + pacingInterval p s)
          in_backoff := true
          backoff_until_ns := u64 (t +
            (Rat.floor ((((if 0 < st.rtt_ns then st.rtt_ns else 100000000) : Nat) : ℚ) *
              (1 + st.loss_rate * 10))).toNat) }
      else
        { st with
          tokens := if 0 < p.target_rate_bps then
              (if s ≤ st.tokens then st.tokens - s else 0) else st.tokens
          next_send_time_ns := u64 (t + pacingInterval p s) }) := by
  by_cases hR : 0 < p.target_rate_bps <;>
    by_cases hl : p.loss_aware_backoff = true ∧ (1/10 : ℚ) < st.loss_rate <;>
      simp [pepper_pacing_update_after_send, pacingInterval, hR, hl]

theorem update_after_send_next (st : PepperPacingState) (p : PepperPacingParams)
    (s t : Nat) :
    (pepper_pacing_update_after_send st p s t).next_send_time_ns =
      u64 (t + pacingInterval p s) := by
  rw [update_after_send_eq]
  by_cases hl : p.loss_aware_backoff = true ∧ (1/10 : ℚ) < st.loss_rate
  · rw [if_pos hl]
  · rw [if_neg hl]

/-- C6 (amended): `pepper_pacing_can_send` with pacing enabled and a
positive target rate refills `tokens` and advances `last_update_ns` on
every call that passes the backoff and time-pacing gates — including
calls that return false for lack of tokens — but a call rejected by the
time gate (or stalled in backoff) leaves `tokens` and `last_update_ns`
untouched, so not literally every call updates them. -/
theorem can_send_refill_on_check (st : PepperPacingState) (p : PepperPacingParams)
    (s t : Nat) (hen : p.enable_pacing = true) (hR : 0 < p.target_rate_bps) :
    (¬(st.in_backoff = true ∧ t < st.backoff_until_ns) →
      st.next_send_time_ns ≤ t →
      ((pepper_pacing_can_send st p s t).2.last_update_ns = t ∧
       (pepper_pacing_can_send st p s t).2.tokens =
         min (u64 (st.tokens +
             u64 (u64sub t st.last_update_ns * p.target_rate_bps) / 8000000000))
           p.max_burst_bytes)) ∧
    (¬(st.in_backoff = true ∧ t < st.backoff_until_ns) →
      t < st.next_send_time_ns →
      ((pepper_pacing_can_send st p s t).1 = false ∧
       (pepper_pacing_can_send st p s t).2.tokens = st.tokens ∧
       (pepper_pacing_can_send st p s t).2.last_update_ns = st.last_update_ns)) ∧
    (st.in_backoff = true → t < st.backoff_until_ns →
      (pepper_pacing_can_send st p s t).2 = st) := by
  refine ⟨fun hnb hnext => ?_, fun hnb hlt => ?_, fun hb hu => ?_⟩
  · simp only [pepper_pacing_can_send, hen, Bool.true_eq_false, if_false,
      if_neg hnb, if_neg (Nat.not_lt.mpr hnext), if_pos hR]
    split <;> simp
  · simp only [pepper_pacing_can_send, hen, Bool.true_eq_false, if_false,
      if_neg hnb, if_pos hlt]
    simp
  · simp only [pepper_pacing_can_send, hen, Bool.true_eq_false, if_false,
      if_pos (And.intro hb hu)]

/-- C6 witness: pacing enabled, rate 8·10⁹ bps, burst 10, tokens 5,
`next_send_time_ns = 100 ≤ now = 200`: the call refills to 10 tokens
and sets `last_update_ns = 200` even though 10 < packet size 20 makes
it return false. -/
theorem can_send_refill_on_check_witness :
    (pepper_pacing_can_send
        { next_send_time_ns := 100, tokens := 5, last_update_ns := 0, loss_rate := 0,
          rtt_ns := 0, in_backoff := false, backoff_until_ns := 0 }
        { target_rate_bps := 8000000000, max_burst_bytes := 10, loss_aware_backoff := false,
          enable_pacing := true, min_pacing_interval_ns := 0 } 20 200).2.last_update_ns =
      200 ∧
    (pepper_pacing_can_send
        { next_send_time_ns := 100, tokens := 5, last_update_ns := 0, loss_rate := 0,
          rtt_ns := 0, in_backoff := false, backoff_until_ns := 0 }
        { target_rate_bps := 8000000000, max_burst_bytes := 10, loss_aware_backoff := false,
          enable_pacing := true, min_pacing_interval_ns := 0 } 20 200).2.tokens =
      min (u64 (5 + u64 (u64sub 200 0 * 8000000000) / 8000000000)) 10 :=
  (can_send_refill_on_check
    { next_send_time_ns := 100, tokens := 5, last_update_ns := 0, loss_rate := 0,
      rtt_ns := 0, in_backoff := false, backoff_until_ns := 0 }
    { target_rate_bps := 8000000000, max_burst_bytes := 10, loss_aware_backoff := false,
      enable_pacing := true, min_pacing_interval_ns := 0 } 20 200 rfl
    (by decide)).1 (by decide) (by decide)

/-- C4: after `pepper_pacing_update_after_send` with packet size `s` at
time `t` (pacing enabled), `pepper_pacing_can_send` returns false at
every time `t2 < t + interval`, and — provided no backoff is in force
and the (refilled) tokens suffice — true at every `t2 ≥ t + interval`,
where `interval = pacingInterval p s`, i.e.
`max(s*8*10^9 / target_rate_bps, min_pacing_interval_ns)` for a
positive target rate and `min_pacing_interval_ns` for rate 0. -/
theorem pacing_interval_enforcement (st : PepperPacingState) (p : PepperPacingParams)
    (s t : Nat) (hen : p.enable_pacing = true)
    (hofl : t + pacingInterval p s < 18446744073709551616) :
    (∀ t2 s2, t2 < t + pacingInterval p s →
      (pepper_pacing_can_send (pepper_pacing_update_after_send st p s t) p s2 t2).1 =
        false) ∧
    (∀ t2 s2, t + pacingInterval p s ≤ t2 →
      (pepper_pacing_update_after_send st p s t).in_backoff = false →
      (p.target_rate_bps = 0 ∨
        s2 ≤ min (u64 ((pepper_pacing_update_after_send st p s t).tokens +
            u64 (u64sub t2 (pepper_pacing_update_after_send st p s t).last_update_ns *
              p.target_rate_bps) / 8000000000)) p.max_burst_bytes) →
      (pepper_pacing_can_send (pepper_pacing_update_after_send st p s t) p s2 t2).1 =
        true) := by
  have hnext : (pepper_pacing_update_after_send st p s t).next_send_time_ns =
      t + pacingInterval p s := by
    rw [update_after_send_next, u64_eq_of_lt hofl]
  constructor
  · intro t2 s2 hlt
    simp only [pepper_pacing_can_send, hen, Bool.true_eq_false, if_false]
    split
    · rfl
    · rw [if_pos (by rw [hnext]; exact hlt)]
  · intro t2 s2 hge hnb htok
    have hnb2 : ¬((pepper_pacing_update_after_send st p s t).in_backoff = true ∧
        t2 < (pepper_pacing_update_after_send st p s t).backoff_until_ns) := by
      rw [hnb]; simp
    have hnl : ¬(t2 < (pepper_pacing_update_after_send st p s t).next_send_time_ns) := by
      rw [hnext]; exact Nat.not_lt.mpr hge
    simp only [pepper_pacing_can_send, hen, Bool.true_eq_false, if_false,
      if_neg hnb2, if_neg hnl]
    by_cases hR : 0 < p.target_rate_bps
    · rcases htok with h0 | htk
      · omega
      · rw [if_pos hR, if_neg (Nat.not_lt.mpr htk)]
    · rw [if_neg hR]

/-- C4 witness: rate 8·10⁹ bps, packet 2 bytes, `min_interval = 5` ns,
sent at `t = 100`: interval is `max(2, 5) = 5`, `can_send` is false at
`t2 = 104` and true at `t2 = 105`. -/
theorem pacing_interval_enforcement_witness :
    (pepper_pacing_can_send
      (pepper_pacing_update_after_send
        { next_send_time_ns := 0, tokens := 10, last_update_ns := 0, loss_rate := 0,
          rtt_ns := 0, in_backoff := false, backoff_until_ns := 0 }
        { target_rate_bps := 8000000000, max_burst_bytes := 10, loss_aware_backoff := false,
          enable_pacing := true, min_pacing_interval_ns := 5 } 2 100)
      { target_rate_bps := 8000000000, max_burst_bytes := 10, loss_aware_backoff := false,
        enable_pacing := true, min_pacing_interval_ns := 5 } 1 104).1 = false ∧
    (pepper_pacing_can_send
      (pepper_pacing_update_after_send
        { next_send_time_ns := 0, tokens := 10, last_update_ns := 0, loss_rate := 0,
          rtt_ns := 0, in_backoff := false, backoff_until_ns := 0 }
        { target_rate_bps := 8000000000, max_burst_bytes := 10, loss_aware_backoff := false,
          enable_pacing := true, min_pacing_interval_ns := 5 } 2 100)
      { target_rate_bps := 8000000000, max_burst_bytes := 10, loss_aware_backoff := false,
        enable_pacing := true, min_pacing_interval_ns := 5 } 1 105).1 = true :=
  ⟨(pacing_interval_enforcement
      { next_send_time_ns := 0, tokens := 10, last_update_ns := 0, loss_rate := 0,
        rtt_ns := 0, in_backoff := false, backoff_until_ns := 0 }
      { target_rate_bps := 8000000000, max_burst_bytes := 10, loss_aware_backoff := false,
        enable_pacing := true, min_pacing_interval_ns := 5 } 2 100 rfl (by decide)).1
      104 1 (by decide),
   (pacing_interval_enforcement
      { next_send_time_ns := 0, tokens := 10, last_update_ns := 0, loss_rate := 0,
        rtt_ns := 0, in_backoff := false, backoff_until_ns := 0 }
      { target_rate_bps := 8000000000, max_burst_bytes := 10, loss_aware_backoff := false,
        enable_pacing := true, min_pacing_interval_ns := 5 } 2 100 rfl (by decide)).2
      105 1 (by decide) (by decide) (Or.inr (by decide))⟩

theorem rat_floor_eq_floor (q : ℚ) : Rat.floor q = ⌊q⌋ := rfl

theorem can_send_result_in_backoff (st : PepperPacingState) (p : PepperPacingParams)
    (s t : Nat) (hen : p.enable_pacing = true)
    (hnb : ¬(st.in_backoff = true ∧ t < st.backoff_until_ns)) :
    (pepper_pacing_can_send st p s t).2.in_backoff = false := by
  simp only [pepper_pacing_can_send, hen, Bool.true_eq_false, if_false, if_neg hnb]
  split
  · rfl
  · split
    · split <;> rfl
    · rfl

/-- C5: with loss-aware backoff enabled and a smoothed loss rate above
10% (and at most 100%), `pepper_pacing_update_after_send` at time `now`
sets `in_backoff` and `backoff_until_ns = now + d`, where
`d = ⌊(rtt_ns, or the 100 ms default) * (1 + loss_rate·10)⌋` lies
between 1× and 11× the (default-substituted) RTT; every
`pepper_pacing_can_send` at a time before `backoff_until_ns` returns
false, and the first call at or after `backoff_until_ns` clears the
`in_backoff` flag. -/
theorem pacing_loss_backoff (st : PepperPacingState) (p : PepperPacingParams)
    (s now : Nat) (hen : p.enable_pacing = true)
    (hlb : p.loss_aware_backoff = true)
    (hlo : (1/10 : ℚ) < st.loss_rate) (hhi : st.loss_rate ≤ 1)
    (hofl : now + 11 * (if 0 < st.rtt_ns then st.rtt_ns else 100000000) <
      18446744073709551616) :
    (pepper_pacing_update_after_send st p s now).in_backoff = true ∧
    (pepper_pacing_update_after_send st p s now).backoff_until_ns =
      now + (Rat.floor ((((if 0 < st.rtt_ns then st.rtt_ns else 100000000) : Nat) : ℚ) *
        (1 + st.loss_rate * 10))).toNat ∧
    now + (if 0 < st.rtt_ns then st.rtt_ns else 100000000) ≤
      (pepper_pacing_update_after_send st p s now).backoff_until_ns ∧
    (pepper_pacing_update_after_send st p s now).backoff_until_ns ≤
      now + 11 * (if 0 < st.rtt_ns then st.rtt_ns else 100000000) ∧
    (∀ t2 s2, t2 < (pepper_pacing_update_after_send st p s now).backoff_until_ns →
      (pepper_pacing_can_send (pepper_pacing_update_after_send st p s now) p s2 t2).1 =
        false) ∧
    (∀ t2 s2, (pepper_pacing_update_after_send st p s now).backoff_until_ns ≤ t2 →
      (pepper_pacing_can_send (pepper_pacing_update_after_send st p s now) p s2
        t2).2.in_backoff = false) := by
  have hbase_pos : 0 < (if 0 < st.rtt_ns then st.rtt_ns else 100000000) := by
    by_cases h : 0 < st.rtt_ns <;> simp [h]
  have hfac_lo : (1 : ℚ) ≤ 1 + st.loss_rate * 10 := by nlinarith
  have hfac_hi : 1 + st.loss_rate * 10 ≤ 11 := by nlinarith
  have hx_lo : (((if 0 < st.rtt_ns then st.rtt_ns else 100000000) : Nat) : ℚ) ≤
      (((if 0 < st.rtt_ns then st.rtt_ns else 100000000) : Nat) : ℚ) *
        (1 + st.loss_rate * 10) :=
    le_mul_of_one_le_right (by positivity) hfac_lo
  have hx_hi : (((if 0 < st.rtt_ns then st.rtt_ns else 100000000) : Nat) : ℚ) *
      (1 + st.loss_rate * 10) ≤
      (((11 * (if 0 < st.rtt_ns then st.rtt_ns else 100000000)) : Nat) : ℚ) := by
    have h1 : (((if 0 < st.rtt_ns then st.rtt_ns else 100000000) : Nat) : ℚ) *
        (1 + st.loss_rate * 10) ≤
        (((if 0 < st.rtt_ns then st.rtt_ns else 100000000) : Nat) : ℚ) * 11 :=
      mul_le_mul_of_nonneg_left hfac_hi (Nat.cast_nonneg _)
    calc (((if 0 < st.rtt_ns then st.rtt_ns else 100000000) : Nat) : ℚ) *
          (1 + st.loss_rate * 10) ≤
        (((if 0 < st.rtt_ns then st.rtt_ns else 100000000) : Nat) : ℚ) * 11 := h1
      _ = (((11 * (if 0 < st.rtt_ns then st.rtt_ns else 100000000)) : Nat) : ℚ) := by
          push_cast; ring
  have hd_lo : (if 0 < st.rtt_ns then st.rtt_ns else 100000000) ≤
      (Rat.floor ((((if 0 < st.rtt_ns then st.rtt_ns else 100000000) : Nat) : ℚ) *
        (1 + st.loss_rate * 10))).toNat := by
    rw [rat_floor_eq_floor]
    rw [Int.le_toNat]
    · rw [Int.le_floor]
      push_cast
      push_cast at hx_lo
      exact hx_lo
    · calc (0 : ℤ) ≤ ((if 0 < st.rtt_ns then st.rtt_ns else 100000000 : Nat) : ℤ) := by
            positivity
        _ ≤ _ := by
            rw [Int.le_floor]; push_cast; push_cast at hx_lo; exact hx_lo
  have hd_hi : (Rat.floor ((((if 0 < st.rtt_ns then st.rtt_ns else 100000000) : Nat) : ℚ) *
      (1 + st.loss_rate * 10))).toNat ≤
      11 * (if 0 < st.rtt_ns then st.rtt_ns else 100000000) := by
    rw [rat_floor_eq_floor, Int.toNat_le]
    calc ⌊(((if 0 < st.rtt_ns then st.rtt_ns else 100000000) : Nat) : ℚ) *
          (1 + st.loss_rate * 10)⌋ ≤
        ⌊(((11 * (if 0 < st.rtt_ns then st.rtt_ns else 100000000)) : Nat) : ℚ)⌋ :=
          Int.floor_le_floor hx_hi
      _ = ((11 * (if 0 < st.rtt_ns then st.rtt_ns else 100000000) : Nat) : ℤ) :=
          Int.floor_natCast _
  have hupd : pepper_pacing_update_after_send st p s now =
      { st with
        tokens := if 0 < p.target_rate_bps then
            (if s ≤ st.tokens then st.tokens - s else 0) else st.tokens
        next_send_time_ns := u64 (now + pacingInterval p s)
        in_backoff := true
        backoff_until_ns := u64 (now +
          (Rat.floor ((((if 0 < st.rtt_ns then st.rtt_ns else 100000000) : Nat) : ℚ) *
            (1 + st.loss_rate * 10))).toNat) } := by
    rw [update_after_send_eq]
    rw [if_pos ⟨hlb, hlo⟩]
  have huntil : u64 (now +
      (Rat.floor ((((if 0 < st.rtt_ns then st.rtt_ns else 100000000) : Nat) : ℚ) *
        (1 + st.loss_rate * 10))).toNat) =
      now + (Rat.floor ((((if 0 < st.rtt_ns then st.rtt_ns else 100000000) : Nat) : ℚ) *
        (1 + st.loss_rate * 10))).toNat :=
    u64_eq_of_lt (by omega)
  rw [hupd]
  refine ⟨rfl, huntil, ?_, ?_, ?_, ?_⟩
  · show now + (if 0 < st.rtt_ns then st.rtt_ns else 100000000) ≤
      u64 (now + (Rat.floor ((((if 0 < st.rtt_ns then st.rtt_ns else 100000000) : Nat) : ℚ) *
        (1 + st.loss_rate * 10))).toNat)
    rw [huntil]; omega
  · show u64 (now + (Rat.floor ((((if 0 < st.rtt_ns then st.rtt_ns else 100000000) : Nat) : ℚ) *
        (1 + st.loss_rate * 10))).toNat) ≤
      now + 11 * (if 0 < st.rtt_ns then st.rtt_ns else 100000000)
    rw [huntil]; omega
  · intro t2 s2 hlt
    simp only [pepper_pacing_can_send, hen, Bool.true_eq_false, if_false]
    rw [if_pos ⟨trivial, hlt⟩]
  · intro t2 s2 hge
    exact can_send_result_in_backoff _ p s2 t2 hen
      (fun h => absurd h.2 (Nat.not_lt.mpr hge))

/-- C5 witness: loss rate 1/2, RTT 100 ms, `update_after_send` at
`now = 1000` enters backoff with
`backoff_until_ns = 1000 + ⌊10^8 · (1 + (1/2)·10)⌋ = 1000 + 6·10^8`. -/
theorem pacing_loss_backoff_witness :
    (pepper_pacing_update_after_send
      { next_send_time_ns := 0, tokens := 10, last_update_ns := 0, loss_rate := 1/2,
        rtt_ns := 100000000, in_backoff := false, backoff_until_ns := 0 }
      { target_rate_bps := 0, max_burst_bytes := 10, loss_aware_backoff := true,
        enable_pacing := true, min_pacing_interval_ns := 0 } 3 1000).in_backoff = true ∧
    (pepper_pacing_update_after_send
      { next_send_time_ns := 0, tokens := 10, last_update_ns := 0, loss_rate := 1/2,
        rtt_ns := 100000000, in_backoff := false, backoff_until_ns := 0 }
      { target_rate_bps := 0, max_burst_bytes := 10, loss_aware_backoff := true,
        enable_pacing := true, min_pacing_interval_ns := 0 } 3 1000).backoff_until_ns =
      1000 + (Rat.floor ((((if 0 < (100000000 : Nat) then (100000000 : Nat)
        else 100000000) : Nat) : ℚ) * (1 + (1/2 : ℚ) * 10))).toNat :=
  ⟨(pacing_loss_backoff
      { next_send_time_ns := 0, tokens := 10, last_update_ns := 0, loss_rate := 1/2,
        rtt_ns := 100000000, in_backoff := false, backoff_until_ns := 0 }
      { target_rate_bps := 0, max_burst_bytes := 10, loss_aware_backoff := true,
        enable_pacing := true, min_pacing_interval_ns := 0 } 3 1000 rfl rfl
      (by norm_num) (by norm_num) (by decide)).1,
   (pacing_loss_backoff
      { next_send_time_ns := 0, tokens := 10, last_update_ns := 0, loss_rate := 1/2,
        rtt_ns := 100000000, in_backoff := false, backoff_until_ns := 0 }
      { target_rate_bps := 0, max_burst_bytes := 10, loss_aware_backoff := true,
        enable_pacing := true, min_pacing_interval_ns := 0 } 3 1000 rfl rfl
      (by norm_num) (by norm_num) (by decide)).2.1⟩

/-- C8: `ProcessPacketBatch` hands each packet of the batch to
`SendViaQuic` exactly once and in receive order (the call trace equals
the batch), and a failed submission only increments the dropped-packet
counter — it never prevents the submission of later packets. -/
theorem forwarder_batch_ordering (connected : Bool) (sendRes : Nat → Int) :
    ∀ (pkts : List (List Nat)) (i0 : Nat) (stats : ForwarderStats),
      stats.packets_dropped + pkts.length < 18446744073709551616 →
      (ProcessPacketBatch connected sendRes i0 pkts stats).2 = pkts ∧
      (ProcessPacketBatch connected sendRes i0 pkts stats).1.packets_dropped =
        stats.packets_dropped + failCount connected sendRes i0 pkts := by
  intro pkts
  induction pkts with
  | nil => intro i0 stats _; exact ⟨rfl, rfl⟩
  | cons pkt rest ih =>
      intro i0 stats hbound
      by_cases hfail : SendViaQuic connected (sendRes i0) < 0
      · have hstep : ProcessPacketBatch connected sendRes i0 (pkt :: rest) stats =
            (let r := ProcessPacketBatch connected sendRes (i0 + 1) rest
              { stats with packets_dropped := u64 (stats.packets_dropped + 1) }
             (r.1, pkt :: r.2)) := by
          simp only [ProcessPacketBatch, if_pos hfail]
        have hd : u64 (stats.packets_dropped + 1) = stats.packets_dropped + 1 :=
          u64_eq_of_lt (by simp at hbound; omega)
        have hrec := ih (i0 + 1)
          { stats with packets_dropped := u64 (stats.packets_dropped + 1) }
          (by simp [hd]; simp at hbound; omega)
        rw [hstep]
        refine ⟨?_, ?_⟩
        · show pkt :: (ProcessPacketBatch connected sendRes (i0 + 1) rest _).2 = pkt :: rest
          rw [hrec.1]
        · show (ProcessPacketBatch connected sendRes (i0 + 1) rest _).1.packets_dropped = _
          rw [hrec.2]
          simp only [failCount, if_pos hfail, hd]
          omega
      · have hstep : ProcessPacketBatch connected sendRes i0 (pkt :: rest) stats =
            (let r := ProcessPacketBatch connected sendRes (i0 + 1) rest
              { stats with packets_sent := u64 (stats.packets_sent + 1),
                           bytes_sent := u64 (stats.bytes_sent + pkt.length) }
             (r.1, pkt :: r.2)) := by
          simp only [ProcessPacketBatch, if_neg hfail]
        have hrec := ih (i0 + 1)
          { stats with packets_sent := u64 (stats.packets_sent + 1),
                       bytes_sent := u64 (stats.bytes_sent + pkt.length) }
          (by simp; simp at hbound; omega)
        rw [hstep]
        refine ⟨?_, ?_⟩
        · show pkt :: (ProcessPacketBatch connected sendRes (i0 + 1) rest _).2 = pkt :: rest
          rw [hrec.1]
        · show (ProcessPacketBatch connected sendRes (i0 + 1) rest _).1.packets_dropped = _
          rw [hrec.2]
          simp only [failCount, if_neg hfail]
          omega

/-- C8 witness: a three-packet batch whose first submission fails is
still forwarded in order `[[1],[2,3],[4]]` and drops exactly one
packet. -/
theorem forwarder_batch_ordering_witness :
    ({ packets_received := 0, packets_sent := 0, packets_dropped := 0,
       bytes_received := 0, bytes_sent := 0, rx_rate_mbps := 0, tx_rate_mbps := 0,
       avg_latency_us := 0 } : ForwarderStats).packets_dropped +
      ([[1], [2, 3], [4]] : List (List Nat)).length < 18446744073709551616 ∧
    (ProcessPacketBatch true (fun i => if i = 0 then -1 else 1) 0 [[1], [2, 3], [4]]
      { packets_received := 0, packets_sent := 0, packets_dropped := 0,
        bytes_received := 0, bytes_sent := 0, rx_rate_mbps := 0, tx_rate_mbps := 0,
        avg_latency_us := 0 }).2 = [[1], [2, 3], [4]] ∧
    (ProcessPacketBatch true (fun i => if i = 0 then -1 else 1) 0 [[1], [2, 3], [4]]
      { packets_received := 0, packets_sent := 0, packets_dropped := 0,
        bytes_received := 0, bytes_sent := 0, rx_rate_mbps := 0, tx_rate_mbps := 0,
        avg_latency_us := 0 }).1.packets_dropped =
      ({ packets_received := 0, packets_sent := 0, packets_dropped := 0,
         bytes_received := 0, bytes_sent := 0, rx_rate_mbps := 0, tx_rate_mbps := 0,
         avg_latency_us := 0 } : ForwarderStats).packets_dropped +
        failCount true (fun i => if i = 0 then -1 else 1) 0 [[1], [2, 3], [4]] :=
  ⟨by decide,
   (forwarder_batch_ordering true (fun i => if i = 0 then -1 else 1) [[1], [2, 3], [4]] 0
      { packets_received := 0, packets_sent := 0, packets_dropped := 0,
        bytes_received := 0, bytes_sent := 0, rx_rate_mbps := 0, tx_rate_mbps := 0,
        avg_latency_us := 0 } (by decide)).1,
   (forwarder_batch_ordering true (fun i => if i = 0 then -1 else 1) [[1], [2, 3], [4]] 0
      { packets_received := 0, packets_sent := 0, packets_dropped := 0,
        bytes_received := 0, bytes_sent := 0, rx_rate_mbps := 0, tx_rate_mbps := 0,
        avg_latency_us := 0 } (by decide)).2⟩

theorem memWrite_length (d src : List Nat) (off : Nat)
    (h : off + src.length ≤ d.length) :
    (memWrite d off src).length = d.length := by
  simp only [memWrite, List.length_append, List.length_take, List.length_drop]
  omega

theorem memWrite_window (d xs : List Nat) (rp wp : Nat)
    (hrw : rp ≤ wp) (hfit : wp + xs.length ≤ d.length) :
    ((memWrite d wp xs).drop rp).take (wp - rp + xs.length) =
      (d.drop rp).take (wp - rp) ++ xs := by
  have hwd : wp ≤ d.length := by omega
  have hx : xs.take (d.length - wp) = xs :=
    List.take_of_length_le (by omega)
  have hl1 : ((d.take wp).drop rp).length = wp - rp := by
    simp only [List.length_drop, List.length_take]
    omega
  unfold memWrite
  rw [hx, List.append_assoc]
  rw [List.drop_append_of_le_length (by simp only [List.length_take]; omega)]
  rw [show wp - rp + xs.length = ((d.take wp).drop rp).length + xs.length from by
    rw [hl1]]
  rw [List.take_append]
  rw [List.take_left]
  rw [List.drop_take]

theorem enqueue_no_wrap (rb : PepperRingBuffer) (xs : List Nat)
    (h0 : xs.length ≠ 0) (hws : rb.write_seq = rb.read_seq)
    (hrw : rb.read_pos ≤ rb.write_pos)
    (hcap64 : rb.capacity < 18446744073709551616)
    (hfit : rb.write_pos + xs.length < rb.capacity) :
    pepper_queue_enqueue rb xs =
      (xs.length, { rb with data := memWrite rb.data rb.write_pos xs,
                            write_pos := rb.write_pos + xs.length }) := by
  have hwp64 : rb.write_pos < 18446744073709551616 := by omega
  have h1 : u64sub rb.write_pos rb.read_pos = rb.write_pos - rb.read_pos :=
    u64sub_eq_of_le hrw hwp64
  have h2 : u64sub rb.capacity (rb.write_pos - rb.read_pos) =
      rb.capacity - (rb.write_pos - rb.read_pos) :=
    u64sub_eq_of_le (by omega) hcap64
  have hlen1 : 1 ≤ xs.length := Nat.pos_of_ne_zero h0
  have hgt : ¬(rb.capacity - (rb.write_pos - rb.read_pos) ≤ 1) := by omega
  have hto : (if xs.length < rb.capacity - (rb.write_pos - rb.read_pos) - 1 then
      xs.length else rb.capacity - (rb.write_pos - rb.read_pos) - 1) = xs.length := by
    split <;> omega
  have hu : u64 (rb.write_pos + xs.length) = rb.write_pos + xs.length :=
    u64_eq_of_lt (by omega)
  have hmod : (rb.write_pos + xs.length) % rb.capacity = rb.write_pos + xs.length :=
    Nat.mod_eq_of_lt hfit
  simp only [pepper_queue_enqueue, if_neg h0, hws, if_pos rfl, hrw, if_true, h1, h2,
    if_neg hgt, hto, hu, if_pos (Nat.le_of_lt hfit), List.take_length,
    lt_irrefl, if_false, hmod, if_neg (by omega : ¬ rb.capacity ≤ rb.write_pos + xs.length)]

theorem dequeue_no_wrap (rb : PepperRingBuffer) (k : Nat)
    (hk : k ≠ 0) (hws : rb.write_seq = rb.read_seq)
    (hne : rb.read_pos < rb.write_pos)
    (hwp : rb.write_pos < rb.capacity)
    (hcap64 : rb.capacity < 18446744073709551616) :
    pepper_queue_dequeue rb k =
      ((rb.data.drop rb.read_pos).take (min k (rb.write_pos - rb.read_pos)),
       { rb with read_pos := rb.read_pos + min k (rb.write_pos - rb.read_pos) }) := by
  have hwp64 : rb.write_pos < 18446744073709551616 := by omega
  have hnemp : ¬(rb.read_seq = rb.write_seq ∧ rb.read_pos = rb.write_pos) :=
    fun h => absurd h.2 (Nat.ne_of_lt hne)
  have h1 : u64sub rb.write_pos rb.read_pos = rb.write_pos - rb.read_pos :=
    u64sub_eq_of_le (Nat.le_of_lt hne) hwp64
  have hto : (if k < rb.write_pos - rb.read_pos then k else rb.write_pos - rb.read_pos) =
      min k (rb.write_pos - rb.read_pos) := by
    rcases Nat.lt_or_ge k (rb.write_pos - rb.read_pos) with h | h
    · rw [if_pos h, min_eq_left (Nat.le_of_lt h)]
    · rw [if_neg (Nat.not_lt.mpr h), min_eq_right h]
  have htr : min k (rb.write_pos - rb.read_pos) ≤ rb.write_pos - rb.read_pos :=
    min_le_right _ _
  have hu : u64 (rb.read_pos + min k (rb.write_pos - rb.read_pos)) =
      rb.read_pos + min k (rb.write_pos - rb.read_pos) :=
    u64_eq_of_lt (by omega)
  have hmod : (rb.read_pos + min k (rb.write_pos - rb.read_pos)) % rb.capacity =
      rb.read_pos + min k (rb.write_pos - rb.read_pos) :=
    Nat.mod_eq_of_lt (by omega)
  have hnp : ¬ rb.read_pos = rb.write_pos := Nat.ne_of_lt hne
  simp only [pepper_queue_dequeue, if_neg hk, hws, if_pos rfl, eq_self_iff_true,
    true_and, if_true, if_neg hnp, if_pos hne, h1, hto, hu,
    if_pos (by omega : rb.read_pos +
      min k (rb.write_pos - rb.read_pos) ≤ rb.capacity),
    lt_irrefl, if_false, List.append_nil, hmod,
    if_neg (by omega : ¬ rb.capacity ≤ rb.read_pos + min k (rb.write_pos - rb.read_pos))]

theorem enqueue_step (rb : PepperRingBuffer) (acc deq xs : List Nat)
    (hinv : QueueInv rb acc deq)
    (hfit : rb.write_pos + xs.length < rb.capacity) :
    (pepper_queue_enqueue rb xs).1 = xs.length ∧
    (pepper_queue_enqueue rb xs).2.capacity = rb.capacity ∧
    QueueInv (pepper_queue_enqueue rb xs).2 (acc ++ xs) deq := by
  by_cases h0 : xs.length = 0
  · have hxs : xs = [] := List.length_eq_zero.mp h0
    have he : pepper_queue_enqueue rb xs = (0, rb) := by
      simp only [pepper_queue_enqueue, if_pos h0]
    rw [he, hxs, List.append_nil]
    exact ⟨rfl, rfl, hinv⟩
  · have he := enqueue_no_wrap rb xs h0 (hinv.hws.trans hinv.hrs.symm) hinv.hrw
      hinv.hcap64 hfit
    have hfitd : rb.write_pos + xs.length ≤ rb.data.length := by
      rw [hinv.hdata]; omega
    rw [he]
    refine ⟨rfl, rfl, ?_⟩
    refine ⟨?_, hinv.hcap, hinv.hcap64, hinv.hws, hinv.hrs, ?_, ?_, ?_, hinv.hdeq, ?_⟩
    · show (memWrite rb.data rb.write_pos xs).length = rb.capacity
      rw [memWrite_length rb.data xs rb.write_pos hfitd, hinv.hdata]
    · exact hfit
    · exact le_trans hinv.hrw (Nat.le_add_right _ _)
    · simp only [List.length_append, hinv.hacc]
    · show acc ++ xs = deq ++
        ((memWrite rb.data rb.write_pos xs).drop rb.read_pos).take
          (rb.write_pos + xs.length - rb.read_pos)
      have harith : rb.write_pos + xs.length - rb.read_pos =
          rb.write_pos - rb.read_pos + xs.length := by
        have := hinv.hrw; omega
      rw [harith, memWrite_window rb.data xs rb.read_pos rb.write_pos hinv.hrw hfitd]
      rw [hinv.hwin, List.append_assoc]

theorem dequeue_step (rb : PepperRingBuffer) (acc deq : List Nat) (k : Nat)
    (hinv : QueueInv rb acc deq) :
    (pepper_queue_dequeue rb k).2.capacity = rb.capacity ∧
    QueueInv (pepper_queue_dequeue rb k).2 acc (deq ++ (pepper_queue_dequeue rb k).1) := by
  by_cases hk : k = 0
  · have he : pepper_queue_dequeue rb k = ([], rb) := by
      simp only [pepper_queue_dequeue, if_pos hk]
    rw [he, List.append_nil]
    exact ⟨rfl, hinv⟩
  by_cases hemp : rb.read_pos = rb.write_pos
  · have hcond : rb.read_seq = rb.write_seq ∧ rb.read_pos = rb.write_pos :=
      ⟨hinv.hrs.trans hinv.hws.symm, hemp⟩
    have he : pepper_queue_dequeue rb k = ([], rb) := by
      simp only [pepper_queue_dequeue, if_neg hk, if_pos hcond]
    rw [he, List.append_nil]
    exact ⟨rfl, hinv⟩
  · have hne : rb.read_pos < rb.write_pos := Nat.lt_of_le_of_ne hinv.hrw hemp
    have he := dequeue_no_wrap rb k hk (hinv.hws.trans hinv.hrs.symm) hne
      hinv.hwp hinv.hcap64
    rw [he]
    have htr : min k (rb.write_pos - rb.read_pos) ≤ rb.write_pos - rb.read_pos :=
      min_le_right _ _
    have hlendrop : (rb.data.drop rb.read_pos).length = rb.capacity - rb.read_pos := by
      rw [List.length_drop, hinv.hdata]
    have hout : ((rb.data.drop rb.read_pos).take
        (min k (rb.write_pos - rb.read_pos))).length =
        min k (rb.write_pos - rb.read_pos) := by
      rw [List.length_take, hlendrop]
      have := hinv.hwp
      have := hinv.hrw
      omega
    refine ⟨rfl, ?_⟩
    refine ⟨hinv.hdata, hinv.hcap, hinv.hcap64, hinv.hws, hinv.hrs, hinv.hwp, ?_,
      hinv.hacc, ?_, ?_⟩
    · show rb.read_pos + min k (rb.write_pos - rb.read_pos) ≤ rb.write_pos
      omega
    · simp only [List.length_append, hinv.hdeq, hout]
    · show acc = (deq ++ (rb.data.drop rb.read_pos).take
          (min k (rb.write_pos - rb.read_pos))) ++
        (rb.data.drop (rb.read_pos + min k (rb.write_pos - rb.read_pos))).take
          (rb.write_pos - (rb.read_pos + min k (rb.write_pos - rb.read_pos)))
      rw [hinv.hwin, List.append_assoc]
      congr 1
      have key : (rb.data.drop rb.read_pos).take (rb.write_pos - rb.read_pos) =
          (rb.data.drop rb.read_pos).take (min k (rb.write_pos - rb.read_pos)) ++
          ((rb.data.drop rb.read_pos).drop (min k (rb.write_pos - rb.read_pos))).take
            (rb.write_pos - rb.read_pos - min k (rb.write_pos - rb.read_pos)) := by
        rw [← List.take_add]
        congr 1
        omega
      rw [key, List.drop_drop, Nat.sub_sub]

theorem run_inv : ∀ (ops : List RbOp) (rb : PepperRingBuffer) (acc deq : List Nat),
    QueueInv rb acc deq →
    acc.length + (offeredBytes ops).length + 1 ≤ rb.capacity →
    (pepper_queue_run rb acc deq ops).2.1 = acc ++ offeredBytes ops ∧
    QueueInv (pepper_queue_run rb acc deq ops).1
      (pepper_queue_run rb acc deq ops).2.1
      (pepper_queue_run rb acc deq ops).2.2 := by
  intro ops
  induction ops with
  | nil =>
      intro rb acc deq hinv _
      exact ⟨(List.append_nil acc).symm, by
        simpa only [List.append_nil] using hinv⟩
  | cons op ops ih =>
      intro rb acc deq hinv hbound
      cases op with
      | enq xs =>
          have hfit : rb.write_pos + xs.length < rb.capacity := by
            have h1 := hinv.hacc
            have h2 : (offeredBytes (RbOp.enq xs :: ops)).length =
                xs.length + (offeredBytes ops).length := by
              simp [offeredBytes]
            omega
          obtain ⟨hn, hcap, hinv2⟩ := enqueue_step rb acc deq xs hinv hfit
          have hrun : pepper_queue_run rb acc deq (RbOp.enq xs :: ops) =
              pepper_queue_run (pepper_queue_enqueue rb xs).2
                (acc ++ xs.take (pepper_queue_enqueue rb xs).1) deq ops := rfl
          rw [hrun, hn, List.take_length]
          have hbound2 : (acc ++ xs).length + (offeredBytes ops).length + 1 ≤
              (pepper_queue_enqueue rb xs).2.capacity := by
            rw [hcap]
            have h2 : (offeredBytes (RbOp.enq xs :: ops)).length =
                xs.length + (offeredBytes ops).length := by
              simp [offeredBytes]
            simp only [List.length_append]
            omega
          obtain ⟨ha, hq⟩ := ih (pepper_queue_enqueue rb xs).2 (acc ++ xs) deq hinv2
            hbound2
          refine ⟨?_, hq⟩
          rw [ha, List.append_assoc]
          simp [offeredBytes]
      | deq k =>
          obtain ⟨hcap, hinv2⟩ := dequeue_step rb acc deq k hinv
          have hrun : pepper_queue_run rb acc deq (RbOp.deq k :: ops) =
              pepper_queue_run (pepper_queue_dequeue rb k).2 acc
                (deq ++ (pepper_queue_dequeue rb k).1) ops := rfl
          rw [hrun]
          have hbound2 : acc.length + (offeredBytes ops).length + 1 ≤
              (pepper_queue_dequeue rb k).2.capacity := by
            rw [hcap]
            have h2 : (offeredBytes (RbOp.deq k :: ops)).length =
                (offeredBytes ops).length := by
              simp [offeredBytes]
            omega
          exact ih (pepper_queue_dequeue rb k).2 acc
            (deq ++ (pepper_queue_dequeue rb k).1) hinv2 hbound2

/-- C2: FIFO round-trip.  For every operation sequence on a freshly
created buffer whose total offered enqueue payload is at most
`capacity - 1` bytes, every enqueue accepts its full payload (the
accepted stream equals the offered stream), and the concatenation of
all bytes returned by the dequeues is, byte for byte and in order, the
corresponding prefix of that stream. -/
theorem ringbuffer_fifo_roundtrip (capacity : Nat) (ops : List RbOp)
    (rb0 : PepperRingBuffer)
    (hcreate : pepper_queue_create capacity = some rb0)
    (hbytes : (offeredBytes ops).length ≤ capacity - 1) :
    (pepper_queue_run rb0 [] [] ops).2.1 = offeredBytes ops ∧
    (pepper_queue_run rb0 [] [] ops).2.2 =
      (offeredBytes ops).take (pepper_queue_run rb0 [] [] ops).2.2.length := by
  have hcap : ¬(capacity = 0 ∨ 64 * 1024 * 1024 < capacity) := by
    intro h
    rw [pepper_queue_create, if_pos h] at hcreate
    exact Option.noConfusion hcreate
  have hrb0 : rb0 = { capacity := capacity, data := List.replicate capacity 0,
                      write_pos := 0, write_seq := 0, read_pos := 0,
                      read_seq := 0 } := by
    rw [pepper_queue_create, if_neg hcap] at hcreate
    exact (Option.some.inj hcreate).symm
  have hcpos : 0 < capacity := by omega
  have hc64 : capacity < 18446744073709551616 := by omega
  have hinv0 : QueueInv rb0 [] [] := by
    rw [hrb0]
    exact ⟨List.length_replicate _ _, hcpos, hc64, rfl, rfl, hcpos, Nat.le_refl 0,
      rfl, rfl, by simp⟩
  have hbound : ([] : List Nat).length + (offeredBytes ops).length + 1 ≤
      rb0.capacity := by
    rw [hrb0]
    simp only [List.length_nil]
    omega
  obtain ⟨ha, hq⟩ := run_inv ops rb0 [] [] hinv0 hbound
  have ha2 : (pepper_queue_run rb0 [] [] ops).2.1 = offeredBytes ops := by
    rw [ha, List.nil_append]
  refine ⟨ha2, ?_⟩
  have hwin := hq.hwin
  rw [ha2] at hwin
  rw [hwin]
  rw [List.take_left]

/-- C2 witness: capacity-8 buffer, ops
`enq [1,2,3]; deq 2; enq [4,5]; deq 3` (5 ≤ 7 bytes offered): all bytes
accepted and the dequeued stream `[1,2]++[3,4,5]` is the full offered
stream in order. -/
theorem ringbuffer_fifo_roundtrip_witness :
    (pepper_queue_run
      { capacity := 8, data := List.replicate 8 0, write_pos := 0, write_seq := 0,
        read_pos := 0, read_seq := 0 } [] []
      [RbOp.enq [1, 2, 3], RbOp.deq 2, RbOp.enq [4, 5], RbOp.deq 3]).2.1 =
      offeredBytes [RbOp.enq [1, 2, 3], RbOp.deq 2, RbOp.enq [4, 5], RbOp.deq 3] ∧
    (pepper_queue_run
      { capacity := 8, data := List.replicate 8 0, write_pos := 0, write_seq := 0,
        read_pos := 0, read_seq := 0 } [] []
      [RbOp.enq [1, 2, 3], RbOp.deq 2, RbOp.enq [4, 5], RbOp.deq 3]).2.2 =
      (offeredBytes [RbOp.enq [1, 2, 3], RbOp.deq 2, RbOp.enq [4, 5], RbOp.deq 3]).take
        (pepper_queue_run
          { capacity := 8, data := List.replicate 8 0, write_pos := 0, write_seq := 0,
            read_pos := 0, read_seq := 0 } [] []
          [RbOp.enq [1, 2, 3], RbOp.deq 2, RbOp.enq [4, 5], RbOp.deq 3]).2.2.length :=
  ringbuffer_fifo_roundtrip 8
    [RbOp.enq [1, 2, 3], RbOp.deq 2, RbOp.enq [4, 5], RbOp.deq 3]
    { capacity := 8, data := List.replicate 8 0, write_pos := 0, write_seq := 0,
      read_pos := 0, read_seq := 0 } (by decide) (by decide)
